import Mathlib

/-!
Shallow embedding of the two-stage domain-availability verification
pipeline of `domain_generator.py` (class `DomainGenerator`): the DNS
probe `check_domain_availability`, the WHOIS probe `whois_check`, and
the orchestrating `batch_check_domains`.

Network effects are modelled by an environment of oracles: for each
candidate domain string, the outcome of the single
`socket.gethostbyname(domain + ".com")` call and the outcome of the
single `subprocess.run(["whois", domain + ".com"], timeout=10)` call.
Python exception propagation is modelled with `Except Unit`; a probe
call that the source wraps in `try/except` becomes a total function on
the modelled outcome.  Throttling (`time.sleep`) and probe invocations
are recorded in an event trace.
-/

/-- Outcome of the `socket.gethostbyname(domain + ".com")` call in
`check_domain_availability` (line 141).  `resolved` = the name resolved
to an address; `gaierror nameNotFound` = the call raised
`socket.gaierror` (with `nameNotFound = true` for a "name not found"
class error and `false` for any other resolution error — the source
catches the whole `socket.gaierror` class without distinguishing);
`otherExc` = the call raised some exception that is not a
`socket.gaierror`. -/
inductive DnsOutcome where
  | resolved
  | gaierror (nameNotFound : Bool)
  | otherExc
deriving DecidableEq, Repr

/-- Outcome of the `subprocess.run(["whois", domain + ".com"], ...,
timeout=10)` call in `whois_check` (lines 149-154): normal completion
with an exit status and captured stdout, `subprocess.TimeoutExpired`,
or any other exception. -/
inductive SubprocOutcome where
  | completed (returncode : Int) (stdout : String)
  | timedOut
  | excOther
deriving DecidableEq, Repr

/-- Environment of network oracles: per candidate domain, the outcome
of its DNS resolution call and of its WHOIS subprocess call. -/
structure Env where
  dns : String → DnsOutcome
  whois : String → SubprocOutcome

/-- `check_domain_availability` (lines 139-144): returns `False` when
resolution succeeds, `True` when the call raises `socket.gaierror`
(the only exception the source catches); any other exception
propagates to the caller (`Except.error`). -/
def check_domain_availability (o : DnsOutcome) : Except Unit Bool :=
  match o with
  | DnsOutcome.resolved => Except.ok false
  | DnsOutcome.gaierror _ => Except.ok true
  | DnsOutcome.otherExc => Except.error ()

/-- `timeout=10` argument of the `subprocess.run` call (line 153). -/
def whois_timeout : Nat := 10

/-- `not_found_patterns` (lines 162-170). -/
def not_found_patterns : List String :=
  ["no match", "not found", "no entries found", "no data found",
   "domain not found", "no matching record", "available for registration"]

/-- `registered_patterns` (lines 177-185). -/
def registered_patterns : List String :=
  ["creation date", "created", "registrar", "expiration date",
   "expires", "name server", "nameserver"]

/-- `pat.isPrefixOf s` on character lists, used to build the
substring test that models Python's `pattern in whois_output`. -/
def charsStart : List Char → List Char → Bool
  | [], _ => true
  | _ :: _, [] => false
  | p :: ps, c :: cs => p == c && charsStart ps cs

/-- `pat` occurs as a contiguous run somewhere in `s`. -/
def charsContain (pat : List Char) : List Char → Bool
  | [] => charsStart pat []
  | c :: cs => charsStart pat (c :: cs) || charsContain pat cs

/-- Python's substring containment `pat in s`. -/
def hasSubstr (s pat : String) : Bool := charsContain pat.toList s.toList

/-- Python's `str.lower()` (character-wise lower-casing), written as a
structural map over the character list so that it evaluates inside the
kernel. -/
def strLower (s : String) : String := String.mk (s.toList.map Char.toLower)

/-- `whois_check` (lines 146-196) given the outcome of its
`subprocess.run` call.  Non-zero exit → `True` (line 156-157); else the
lower-cased stdout is scanned for a not-found pattern (→ `True`,
lines 172-174), then for a registered pattern (→ `False`,
lines 187-189), else `True` (line 191).  `TimeoutExpired` → `None`
(lines 193-194); any other exception → `None` (lines 195-196). -/
def whois_check (o : SubprocOutcome) : Option Bool :=
  match o with
  | SubprocOutcome.completed rc out =>
    if rc != 0 then
      some true
    else
      let whois_output := strLower out
      if not_found_patterns.any (fun pat => hasSubstr whois_output pat) then
        some true
      else if registered_patterns.any (fun pat => hasSubstr whois_output pat) then
        some false
      else
        some true
  | SubprocOutcome.timedOut => none
  | SubprocOutcome.excOther => none

/-- The per-candidate result dict built in `batch_check_domains`
(lines 211-219), with the same keys. -/
structure Record where
  domain : String
  dns_available : Bool
  whois_available : Option Bool
  available : Bool
  full_domain : String
  godaddy_url : String
  verification_method : String
deriving DecidableEq, Repr

/-- Probe invocations and `time.sleep` pauses performed by
`batch_check_domains`, in order.  Sleep durations are in the source's
seconds, as rationals. -/
inductive Event where
  | dnsQuery (domain : String)
  | whoisQuery (domain : String)
  | sleep (duration : ℚ)
deriving DecidableEq, Repr

/-- The stage-1 result dict for one candidate (lines 209-219):
`dns_available` and `available` both set to the DNS probe's boolean,
`whois_available` unset, `verification_method = 'DNS only'`. -/
def mkRecord (domain : String) (is_dns_available : Bool) : Record :=
  { domain := domain
    dns_available := is_dns_available
    whois_available := none
    available := is_dns_available
    full_domain := domain ++ ".com"
    godaddy_url :=
      "https://www.godaddy.com/domainsearch/find?domainToCheck=" ++ domain ++ ".com"
    verification_method := "DNS only" }

/-- Stage 1 of `batch_check_domains` (lines 202-226): one DNS probe per
candidate in order, a 0.1 s sleep after each, records appended in
order.  An uncaught exception in the DNS probe propagates and aborts
the whole run. -/
def stage1 (env : Env) : List String → Except Unit (List Record × List Event)
  | [] => Except.ok ([], [])
  | d :: rest =>
    match check_domain_availability (env.dns d) with
    | Except.error e => Except.error e
    | Except.ok b =>
      match stage1 env rest with
      | Except.error e => Except.error e
      | Except.ok (rs, tr) =>
        Except.ok (mkRecord d b :: rs,
          Event.dnsQuery d :: Event.sleep (1/10) :: tr)

/-- Stage 2 mutation of one record (lines 240-247): `whois_available`
is set to the WHOIS probe's result; a definite boolean overwrites
`available` and sets `verification_method = 'DNS + WHOIS'`; `None`
leaves `available` alone and sets
`verification_method = 'DNS + WHOIS (timeout)'`.  Records that did not
survive stage 1 are not touched (only `dns_available` members are
iterated, line 236). -/
def update_record (env : Env) (r : Record) : Record :=
  if r.dns_available then
    match whois_check (env.whois r.domain) with
    | some b =>
      { r with whois_available := some b
               available := b
               verification_method := "DNS + WHOIS" }
    | none =>
      { r with whois_available := none
               verification_method := "DNS + WHOIS (timeout)" }
  else r

/-- Stage-2 event trace (lines 236-249): one WHOIS probe per survivor
in order, each followed by a 0.5 s sleep. -/
def stage2Trace : List Record → List Event
  | [] => []
  | r :: rest =>
    Event.whoisQuery r.domain :: Event.sleep (1/2) :: stage2Trace rest

/-- `batch_check_domains` (lines 198-254): stage 1 over all candidates,
then stage 2 over the `dns_available` survivors (which alias the
stage-1 records, so updating them in place is updating the result
list).  Returns the records in original candidate order together with
the event trace. -/
def batch_check_domains (env : Env) (domains : List String) :
    Except Unit (List Record × List Event) :=
  match stage1 env domains with
  | Except.error e => Except.error e
  | Except.ok (results, tr) =>
    let dns_available := results.filter (fun r => r.dns_available)
    Except.ok (results.map (update_record env), tr ++ stage2Trace dns_available)

/-- The boolean `check_domain_availability` yields on an outcome that
does not raise (the value at `otherExc` is irrelevant: that case aborts
instead of returning). -/
def dnsBool : DnsOutcome → Bool
  | DnsOutcome.resolved => false
  | DnsOutcome.gaierror _ => true
  | DnsOutcome.otherExc => true

/-- The event trace stage 1 produces on a run that completes. -/
def dnsTrace : List String → List Event
  | [] => []
  | d :: rest => Event.dnsQuery d :: Event.sleep (1/10) :: dnsTrace rest

/-- The record list stage 1 produces on a run that completes. -/
def stage1Records (env : Env) (ds : List String) : List Record :=
  ds.map (fun d => mkRecord d (dnsBool (env.dns d)))

/-- The record a candidate ends up with after both stages. -/
def finalRecord (env : Env) (d : String) : Record :=
  update_record env (mkRecord d (dnsBool (env.dns d)))

theorem check_ok_iff (o : DnsOutcome) (b : Bool) :
    check_domain_availability o = Except.ok b ↔
      o ≠ DnsOutcome.otherExc ∧ b = dnsBool o := by
  cases o <;> simp [check_domain_availability, dnsBool, eq_comm]

theorem stage1_ok (env : Env) :
    ∀ (ds : List String) (rs : List Record) (tr : List Event),
    stage1 env ds = Except.ok (rs, tr) →
    (∀ d ∈ ds, env.dns d ≠ DnsOutcome.otherExc) ∧
    rs = stage1Records env ds ∧ tr = dnsTrace ds := by
  intro ds
  induction ds with
  | nil =>
    intro rs tr h
    simp only [stage1, Except.ok.injEq, Prod.mk.injEq] at h
    simp [h.1, h.2, stage1Records, dnsTrace]
  | cons d rest ih =>
    intro rs tr h
    simp only [stage1] at h
    cases hc : check_domain_availability (env.dns d) with
    | error e => rw [hc] at h; exact absurd h (by simp)
    | ok b =>
      rw [hc] at h
      cases hs : stage1 env rest with
      | error e => rw [hs] at h; exact absurd h (by simp)
      | ok p =>
        obtain ⟨rs0, tr0⟩ := p
        rw [hs] at h
        simp only [Except.ok.injEq, Prod.mk.injEq] at h
        obtain ⟨hrs, htr⟩ := h
        obtain ⟨hne, hb⟩ := (check_ok_iff _ _).mp hc
        obtain ⟨ih1, ih2, ih3⟩ := ih rs0 tr0 hs
        refine ⟨?_, ?_, ?_⟩
        · intro x hx
          rcases List.mem_cons.mp hx with hx | hx
          · exact hx ▸ hne
          · exact ih1 x hx
        · rw [← hrs, ih2, hb]; simp [stage1Records]
        · rw [← htr, ih3]; simp [dnsTrace]

theorem stage1_total (env : Env) :
    ∀ (ds : List String), (∀ d ∈ ds, env.dns d ≠ DnsOutcome.otherExc) →
    stage1 env ds = Except.ok (stage1Records env ds, dnsTrace ds) := by
  intro ds
  induction ds with
  | nil => intro _; simp [stage1, stage1Records, dnsTrace]
  | cons d rest ih =>
    intro h
    have hd : env.dns d ≠ DnsOutcome.otherExc := h d (List.mem_cons_self d rest)
    have hrest := ih (fun x hx => h x (List.mem_cons_of_mem d hx))
    have hc : check_domain_availability (env.dns d) =
        Except.ok (dnsBool (env.dns d)) := (check_ok_iff _ _).mpr ⟨hd, rfl⟩
    simp [stage1, hc, hrest, stage1Records, dnsTrace]

theorem batch_ok (env : Env) (ds : List String) (rs : List Record) (tr : List Event)
    (h : batch_check_domains env ds = Except.ok (rs, tr)) :
    (∀ d ∈ ds, env.dns d ≠ DnsOutcome.otherExc) ∧
    rs = ds.map (finalRecord env) ∧
    tr = dnsTrace ds ++
      stage2Trace ((stage1Records env ds).filter (fun r => r.dns_available)) := by
  unfold batch_check_domains at h
  cases hs : stage1 env ds with
  | error e => rw [hs] at h; exact absurd h (by simp)
  | ok p =>
    obtain ⟨rs0, tr0⟩ := p
    rw [hs] at h
    simp only [Except.ok.injEq, Prod.mk.injEq] at h
    obtain ⟨hne, hrs0, htr0⟩ := stage1_ok env ds rs0 tr0 hs
    refine ⟨hne, ?_, ?_⟩
    · rw [← h.1, hrs0]
      simp [stage1Records, finalRecord, List.map_map, Function.comp]
    · rw [← h.2, htr0, hrs0]

theorem batch_total (env : Env) (ds : List String)
    (h : ∀ d ∈ ds, env.dns d ≠ DnsOutcome.otherExc) :
    batch_check_domains env ds =
      Except.ok (ds.map (finalRecord env),
        dnsTrace ds ++
          stage2Trace ((stage1Records env ds).filter (fun r => r.dns_available))) := by
  unfold batch_check_domains
  rw [stage1_total env ds h]
  simp [stage1Records, finalRecord, List.map_map, Function.comp]

theorem update_record_preserves (env : Env) (r : Record) :
    (update_record env r).domain = r.domain ∧
    (update_record env r).dns_available = r.dns_available ∧
    (update_record env r).full_domain = r.full_domain ∧
    (update_record env r).godaddy_url = r.godaddy_url := by
  unfold update_record
  cases hb : r.dns_available
  · simp [hb]
  · cases hw : whois_check (env.whois r.domain) <;> simp [hb, hw]

theorem mkRecord_domain (d : String) (b : Bool) : (mkRecord d b).domain = d := rfl

theorem mkRecord_dns_available (d : String) (b : Bool) :
    (mkRecord d b).dns_available = b := rfl

theorem finalRecord_domain (env : Env) (d : String) :
    (finalRecord env d).domain = d := by
  unfold finalRecord
  rw [(update_record_preserves env _).1, mkRecord_domain]

theorem finalRecord_dns_available (env : Env) (d : String) :
    (finalRecord env d).dns_available = dnsBool (env.dns d) := by
  unfold finalRecord
  rw [(update_record_preserves env _).2.1, mkRecord_dns_available]

/-- The candidate a WHOIS-probe event queried, if the event is one. -/
def whoisDomain : Event → Option String
  | Event.whoisQuery d => some d
  | _ => none

theorem dnsTrace_no_whois (ds : List String) :
    (dnsTrace ds).filterMap whoisDomain = [] := by
  induction ds with
  | nil => rfl
  | cons d rest ih => simp [dnsTrace, List.filterMap_cons, whoisDomain, ih]

theorem stage2Trace_whois (l : List Record) :
    (stage2Trace l).filterMap whoisDomain = l.map (fun r => r.domain) := by
  induction l with
  | nil => rfl
  | cons r rest ih => simp [stage2Trace, List.filterMap_cons, whoisDomain, ih]

theorem survivors_domains (env : Env) (ds : List String) :
    ((stage1Records env ds).filter (fun r => r.dns_available)).map (fun r => r.domain)
      = ds.filter (fun d => dnsBool (env.dns d)) := by
  induction ds with
  | nil => rfl
  | cons d rest ih =>
    simp only [stage1Records, List.map_cons, List.filter_cons] at ih ⊢
    cases hb : dnsBool (env.dns d) <;>
      simp [mkRecord_dns_available, mkRecord_domain, hb, ih]

/-- Every DNS-probe event in the trace is immediately followed by the
0.1 s sleep of line 226. -/
def dnsPause (tr : List Event) : Prop :=
  ∀ i d, tr.get? i = some (Event.dnsQuery d) →
    tr.get? (i + 1) = some (Event.sleep (1/10))

/-- Every WHOIS-probe event in the trace is immediately followed by the
0.5 s sleep of line 249. -/
def whoisPause (tr : List Event) : Prop :=
  ∀ i d, tr.get? i = some (Event.whoisQuery d) →
    tr.get? (i + 1) = some (Event.sleep (1/2))

theorem dnsPause_nil : dnsPause [] := by
  intro i d h
  simp at h

theorem whoisPause_nil : whoisPause [] := by
  intro i d h
  simp at h

theorem dnsPause_cons_dns (d : String) (tr : List Event) (h : dnsPause tr) :
    dnsPause (Event.dnsQuery d :: Event.sleep (1/10) :: tr) := by
  intro i d2 hi
  match i with
  | 0 => simp
  | 1 => simp at hi
  | (n + 2) => exact h n d2 (by simpa using hi)

theorem dnsPause_cons_whois (d : String) (q : ℚ) (tr : List Event) (h : dnsPause tr) :
    dnsPause (Event.whoisQuery d :: Event.sleep q :: tr) := by
  intro i d2 hi
  match i with
  | 0 => simp at hi
  | 1 => simp at hi
  | (n + 2) => exact h n d2 (by simpa using hi)

theorem whoisPause_cons_dns (d : String) (q : ℚ) (tr : List Event) (h : whoisPause tr) :
    whoisPause (Event.dnsQuery d :: Event.sleep q :: tr) := by
  intro i d2 hi
  match i with
  | 0 => simp at hi
  | 1 => simp at hi
  | (n + 2) => exact h n d2 (by simpa using hi)

theorem whoisPause_cons_whois (d : String) (tr : List Event) (h : whoisPause tr) :
    whoisPause (Event.whoisQuery d :: Event.sleep (1/2) :: tr) := by
  intro i d2 hi
  match i with
  | 0 => simp
  | 1 => simp at hi
  | (n + 2) => exact h n d2 (by simpa using hi)

theorem stage2Trace_dnsPause (l : List Record) : dnsPause (stage2Trace l) := by
  induction l with
  | nil => exact dnsPause_nil
  | cons r rest ih => exact dnsPause_cons_whois r.domain (1/2) _ ih

theorem stage2Trace_whoisPause (l : List Record) : whoisPause (stage2Trace l) := by
  induction l with
  | nil => exact whoisPause_nil
  | cons r rest ih => exact whoisPause_cons_whois r.domain _ ih

theorem dnsTrace_append_dnsPause (ds : List String) (s2 : List Event)
    (h : dnsPause s2) : dnsPause (dnsTrace ds ++ s2) := by
  induction ds with
  | nil => simpa [dnsTrace] using h
  | cons d rest ih => exact dnsPause_cons_dns d _ ih

theorem dnsTrace_append_whoisPause (ds : List String) (s2 : List Event)
    (h : whoisPause s2) : whoisPause (dnsTrace ds ++ s2) := by
  induction ds with
  | nil => simpa [dnsTrace] using h
  | cons d rest ih => exact whoisPause_cons_dns d (1/10) _ ih

theorem dnsPause_between (tr : List Event) (h : dnsPause tr)
    (i j : ℕ) (d d2 : String) (hij : i < j)
    (hi : tr.get? i = some (Event.dnsQuery d))
    (hj : tr.get? j = some (Event.dnsQuery d2)) :
    ∃ k, i < k ∧ k < j ∧ tr.get? k = some (Event.sleep (1/10)) := by
  refine ⟨i + 1, Nat.lt_succ_self i, ?_, h i d hi⟩
  rcases Nat.lt_or_ge (i + 1) j with hlt | hge
  · exact hlt
  · have heq : i + 1 = j := Nat.le_antisymm hij hge
    rw [← heq, h i d hi] at hj
    exact absurd hj (by simp)

theorem whoisPause_between (tr : List Event) (h : whoisPause tr)
    (i j : ℕ) (d d2 : String) (hij : i < j)
    (hi : tr.get? i = some (Event.whoisQuery d))
    (hj : tr.get? j = some (Event.whoisQuery d2)) :
    ∃ k, i < k ∧ k < j ∧ tr.get? k = some (Event.sleep (1/2)) := by
  refine ⟨i + 1, Nat.lt_succ_self i, ?_, h i d hi⟩
  rcases Nat.lt_or_ge (i + 1) j with hlt | hge
  · exact hlt
  · have heq : i + 1 = j := Nat.le_antisymm hij hge
    rw [← heq, h i d hi] at hj
    exact absurd hj (by simp)

theorem finalRecord_whois_some (env : Env) (d : String) (b : Bool)
    (h : dnsBool (env.dns d) = true) (hw : whois_check (env.whois d) = some b) :
    (finalRecord env d).whois_available = some b ∧
    (finalRecord env d).available = b ∧
    (finalRecord env d).verification_method = "DNS + WHOIS" := by
  unfold finalRecord update_record
  simp [mkRecord_dns_available, mkRecord_domain, h, hw, mkRecord]

theorem finalRecord_whois_none (env : Env) (d : String)
    (h : dnsBool (env.dns d) = true) (hw : whois_check (env.whois d) = none) :
    (finalRecord env d).whois_available = none ∧
    (finalRecord env d).available = true ∧
    (finalRecord env d).verification_method = "DNS + WHOIS (timeout)" := by
  unfold finalRecord update_record
  simp [mkRecord_dns_available, mkRecord_domain, h, hw, mkRecord]

theorem finalRecord_dns_false (env : Env) (d : String)
    (h : dnsBool (env.dns d) = false) :
    finalRecord env d = mkRecord d false := by
  unfold finalRecord update_record
  simp [mkRecord_dns_available, h]

/-- C1: for every record the verification pipeline returns, the final
`available` verdict equals the record's WHOIS result whenever that
result is a definite boolean; otherwise (WHOIS unclear or never run) it
equals the stage-1 DNS result, which the `dns_available` field stores
faithfully. -/
theorem C1_final_verdict (env : Env) (ds : List String) (rs : List Record)
    (tr : List Event) (h : batch_check_domains env ds = Except.ok (rs, tr)) :
    ∀ r ∈ rs,
      r.dns_available = dnsBool (env.dns r.domain) ∧
      (∀ b, r.whois_available = some b → r.available = b) ∧
      (r.whois_available = none → r.available = r.dns_available) := by
  obtain ⟨-, hrs, -⟩ := batch_ok env ds rs tr h
  subst hrs
  intro r hr
  obtain ⟨d, -, rfl⟩ := List.mem_map.mp hr
  refine ⟨by rw [finalRecord_dns_available, finalRecord_domain], ?_, ?_⟩
  · intro b hb
    cases hd : dnsBool (env.dns d)
    · rw [finalRecord_dns_false env d hd] at hb
      exact absurd hb (by simp [mkRecord])
    · cases hw : whois_check (env.whois d) with
      | none =>
        rw [(finalRecord_whois_none env d hd hw).1] at hb
        cases hb
      | some b0 =>
        obtain ⟨h1, h2, -⟩ := finalRecord_whois_some env d b0 hd hw
        rw [h1] at hb
        injection hb with hbb
        rw [h2, ← hbb]
  · intro hnone
    cases hd : dnsBool (env.dns d)
    · rw [finalRecord_dns_false env d hd]
      rfl
    · cases hw : whois_check (env.whois d) with
      | none =>
        obtain ⟨-, h2, -⟩ := finalRecord_whois_none env d hd hw
        rw [h2, finalRecord_dns_available, hd]
      | some b0 =>
        rw [(finalRecord_whois_some env d b0 hd hw).1] at hnone
        cases hnone

/-- C2: the trace's WHOIS-probe invocations are exactly one per
candidate whose DNS probe returned `true`, in order — none for a
DNS-`false` candidate — and every DNS-`false` candidate's record keeps
`whois_available` unset with `verification_method = "DNS only"`. -/
theorem C2_whois_once_per_survivor (env : Env) (ds : List String) (rs : List Record)
    (tr : List Event) (h : batch_check_domains env ds = Except.ok (rs, tr)) :
    tr.filterMap whoisDomain = ds.filter (fun d => dnsBool (env.dns d)) ∧
    ∀ r ∈ rs, r.dns_available = false →
      r.whois_available = none ∧ r.verification_method = "DNS only" := by
  obtain ⟨-, hrs, htr⟩ := batch_ok env ds rs tr h
  constructor
  · rw [htr, List.filterMap_append, dnsTrace_no_whois, stage2Trace_whois,
      survivors_domains]
    simp
  · subst hrs
    intro r hr hfalse
    obtain ⟨d, -, rfl⟩ := List.mem_map.mp hr
    rw [finalRecord_dns_available] at hfalse
    rw [finalRecord_dns_false env d hfalse]
    exact ⟨rfl, rfl⟩

/-- C6: the pipeline returns exactly one record per input candidate, in
input order, and an empty candidate list yields an empty record list
with an empty event trace (no probe invocations at all). -/
theorem C6_order_preserved (env : Env) (ds : List String) (rs : List Record)
    (tr : List Event) (h : batch_check_domains env ds = Except.ok (rs, tr)) :
    List.map (fun r => r.domain) rs = ds ∧
    batch_check_domains env [] = Except.ok ([], []) := by
  obtain ⟨-, hrs, -⟩ := batch_ok env ds rs tr h
  subst hrs
  refine ⟨?_, rfl⟩
  rw [List.map_map]
  have hc : ((fun r => r.domain) ∘ finalRecord env) = fun d => d :=
    funext (fun d => finalRecord_domain env d)
  rw [hc]
  exact List.map_id' ds

/-- C3: on a zero-exit WHOIS response, classification over the
lower-cased body follows strict precedence: any not-found phrase →
`Available` (even if a registered phrase also appears), else any
registered phrase → `Taken`, else `Available`. -/
theorem C3_classification_precedence (out : String) :
    ((∃ p ∈ not_found_patterns, hasSubstr (strLower out) p = true) →
      whois_check (SubprocOutcome.completed 0 out) = some true) ∧
    ((∀ p ∈ not_found_patterns, hasSubstr (strLower out) p = false) →
      (∃ p ∈ registered_patterns, hasSubstr (strLower out) p = true) →
      whois_check (SubprocOutcome.completed 0 out) = some false) ∧
    ((∀ p ∈ not_found_patterns, hasSubstr (strLower out) p = false) →
      (∀ p ∈ registered_patterns, hasSubstr (strLower out) p = false) →
      whois_check (SubprocOutcome.completed 0 out) = some true) := by
  have h0 : ((0 : Int) != 0) = false := by decide
  refine ⟨?_, ?_, ?_⟩
  · intro hex
    have hany : not_found_patterns.any (fun pat => hasSubstr (strLower out) pat) = true :=
      List.any_eq_true.mpr hex
    simp [whois_check, h0, hany]
  · intro hall hex
    have hnf : not_found_patterns.any (fun pat => hasSubstr (strLower out) pat) = false :=
      List.any_eq_false.mpr (fun p hp => by simp [hall p hp])
    have hreg : registered_patterns.any (fun pat => hasSubstr (strLower out) pat) = true :=
      List.any_eq_true.mpr hex
    simp [whois_check, h0, hnf, hreg]
  · intro hall1 hall2
    have hnf : not_found_patterns.any (fun pat => hasSubstr (strLower out) pat) = false :=
      List.any_eq_false.mpr (fun p hp => by simp [hall1 p hp])
    have hreg : registered_patterns.any (fun pat => hasSubstr (strLower out) pat) = false :=
      List.any_eq_false.mpr (fun p hp => by simp [hall2 p hp])
    simp [whois_check, h0, hnf, hreg]

/-- C3 witness: a body containing both a not-found phrase ("no match")
and a registered phrase ("registrar") classifies as `Available`. -/
theorem C3_witness :
    whois_check (SubprocOutcome.completed 0 "No match for domain; Registrar: X") = some true :=
  (C3_classification_precedence "No match for domain; Registrar: X").1
    ⟨"no match", by decide, by decide⟩

/-- C4: the WHOIS probe maps its failure modes as: non-zero exit status
→ `Available`; timeout of the 10-second bounded call → `Unclear`; any
other exception during the call → `Unclear`.  It never raises:
`whois_check` is a total function into `Option Bool`. -/
theorem C4_whois_failure_modes (rc : Int) (out : String) :
    (rc ≠ 0 → whois_check (SubprocOutcome.completed rc out) = some true) ∧
    whois_check SubprocOutcome.timedOut = none ∧
    whois_check SubprocOutcome.excOther = none ∧
    whois_timeout = 10 := by
  refine ⟨?_, rfl, rfl, rfl⟩
  intro h
  have hb : (rc != 0) = true := by simpa using h
  simp [whois_check, hb]

/-- C4 witness: exit status 1 yields `Available`, instantiating the
non-zero-exit hypothesis. -/
theorem C4_witness :
    whois_check (SubprocOutcome.completed 1 "anything") = some true :=
  (C4_whois_failure_modes 1 "anything").1 (by decide)

/-- C7: the DNS probe returns `false` when resolution succeeds and
`true` when resolution fails with `socket.gaierror`, whether the error
is of the "name not found" class (`gaierror true`) or any other
resolution error (`gaierror false`) — both fail open toward
"available". -/
theorem C7_dns_fails_open (nameNotFound : Bool) :
    check_domain_availability DnsOutcome.resolved = Except.ok false ∧
    check_domain_availability (DnsOutcome.gaierror true) = Except.ok true ∧
    check_domain_availability (DnsOutcome.gaierror nameNotFound) = Except.ok true :=
  ⟨rfl, rfl, rfl⟩

/-- C5 (amended): a survivor whose WHOIS probe is unclear keeps its
stage-1 verdict and is tagged with exactly the string
`"DNS + WHOIS (timeout)"` (the one tag the source uses for both the
timeout and the error path); a survivor with a definite WHOIS boolean
is tagged exactly `"DNS + WHOIS"`. -/
theorem C5_verification_method_tags (env : Env) (ds : List String) (rs : List Record)
    (tr : List Event) (h : batch_check_domains env ds = Except.ok (rs, tr)) :
    ∀ r ∈ rs, r.dns_available = true →
      (whois_check (env.whois r.domain) = none →
        r.verification_method = "DNS + WHOIS (timeout)" ∧
        r.available = r.dns_available) ∧
      (∀ b, whois_check (env.whois r.domain) = some b →
        r.verification_method = "DNS + WHOIS") := by
  obtain ⟨-, hrs, -⟩ := batch_ok env ds rs tr h
  subst hrs
  intro r hr htrue
  obtain ⟨d, -, rfl⟩ := List.mem_map.mp hr
  rw [finalRecord_dns_available] at htrue
  rw [finalRecord_domain]
  constructor
  · intro hw
    obtain ⟨-, h2, h3⟩ := finalRecord_whois_none env d htrue hw
    exact ⟨h3, by rw [h2, finalRecord_dns_available, htrue]⟩
  · intro b hw
    exact (finalRecord_whois_some env d b htrue hw).2.2

/-- Oracle environment for the C5 counterexample: DNS always fails
resolution ("name not found"), WHOIS always times out. -/
def cexEnv : Env :=
  { dns := fun _ => DnsOutcome.gaierror true
    whois := fun _ => SubprocOutcome.timedOut }

/-- The record `batch_check_domains cexEnv ["freebie"]` produces. -/
def cexRec : Record :=
  { mkRecord "freebie" true with verification_method := "DNS + WHOIS (timeout)" }

/-- C5 counterexample: a survivor whose WHOIS call times out gets
`verification_method = "DNS + WHOIS (timeout)"`, not the claimed
`"DNS + WHOIS (timeout-or-error)"`. -/
theorem C5_counterexample :
    batch_check_domains cexEnv ["freebie"] =
      Except.ok ([cexRec],
        [Event.dnsQuery "freebie", Event.sleep (1/10),
         Event.whoisQuery "freebie", Event.sleep (1/2)]) ∧
    cexRec.dns_available = true ∧
    whois_check (cexEnv.whois "freebie") = none ∧
    cexRec.verification_method ≠ "DNS + WHOIS (timeout-or-error)" :=
  ⟨by rfl, rfl, rfl, by decide⟩

/-- C8 (amended): an unexpected exception inside the WHOIS probe never
aborts the batch — `whois_check` catches every exception and folds it
into the unclear result — and as long as no candidate's DNS call raises
outside `socket.gaierror`, the batch completes with one record per
candidate whatever the WHOIS outcomes are.  (A non-`gaierror` exception
in the DNS probe, by contrast, propagates: see the counterexample.) -/
theorem C8_whois_failures_never_abort (env : Env) (ds : List String)
    (h : ∀ d ∈ ds, env.dns d ≠ DnsOutcome.otherExc) :
    whois_check SubprocOutcome.excOther = none ∧
    ∃ rs tr, batch_check_domains env ds = Except.ok (rs, tr) ∧
      List.map (fun r => r.domain) rs = ds := by
  refine ⟨rfl, ds.map (finalRecord env), _, batch_total env ds h, ?_⟩
  rw [List.map_map]
  have hc : ((fun r => r.domain) ∘ finalRecord env) = fun d => d :=
    funext (fun d => finalRecord_domain env d)
  rw [hc]
  exact List.map_id' ds

/-- Oracle environment for the C8 counterexample: the DNS call for
"boom" raises an exception that is not a `socket.gaierror`; every other
name fails resolution normally. -/
def c8Env : Env :=
  { dns := fun d => if d = "boom" then DnsOutcome.otherExc else DnsOutcome.gaierror true
    whois := fun _ => SubprocOutcome.completed 0 "No match for domain" }

/-- C8 counterexample: an unexpected (non-`gaierror`) exception in the
DNS probe for one candidate aborts the whole batch — no record is
produced for the remaining candidate "fine". -/
theorem C8_counterexample :
    batch_check_domains c8Env ["boom", "fine"] = Except.error () := by rfl

/-- C9: in every completed batch run, a 0.1 s pause occurs strictly
between any two DNS probe invocations and a 0.5 s pause occurs strictly
between any two WHOIS probe invocations. -/
theorem C9_throttling (env : Env) (ds : List String) (rs : List Record)
    (tr : List Event) (h : batch_check_domains env ds = Except.ok (rs, tr)) :
    (∀ i j d d2, i < j → tr.get? i = some (Event.dnsQuery d) →
      tr.get? j = some (Event.dnsQuery d2) →
      ∃ k, i < k ∧ k < j ∧ tr.get? k = some (Event.sleep (1/10))) ∧
    (∀ i j d d2, i < j → tr.get? i = some (Event.whoisQuery d) →
      tr.get? j = some (Event.whoisQuery d2) →
      ∃ k, i < k ∧ k < j ∧ tr.get? k = some (Event.sleep (1/2))) := by
  obtain ⟨-, -, htr⟩ := batch_ok env ds rs tr h
  subst htr
  have hd := dnsTrace_append_dnsPause ds
    (stage2Trace ((stage1Records env ds).filter (fun r => r.dns_available)))
    (stage2Trace_dnsPause _)
  have hw := dnsTrace_append_whoisPause ds
    (stage2Trace ((stage1Records env ds).filter (fun r => r.dns_available)))
    (stage2Trace_whoisPause _)
  exact ⟨fun i j d d2 hij hi hj => dnsPause_between _ hd i j d d2 hij hi hj,
         fun i j d d2 hij hi hj => whoisPause_between _ hw i j d d2 hij hi hj⟩

/-- C10: every returned record carries `full_domain` equal to the
candidate plus `".com"` and `godaddy_url` equal to the GoDaddy search
prefix plus the candidate plus `".com"`; stage 2 (`update_record`)
never modifies either field. -/
theorem C10_display_fields (env : Env) (ds : List String) (rs : List Record)
    (tr : List Event) (h : batch_check_domains env ds = Except.ok (rs, tr)) :
    (∀ r ∈ rs, r.full_domain = r.domain ++ ".com" ∧
      r.godaddy_url =
        "https://www.godaddy.com/domainsearch/find?domainToCheck=" ++
          r.domain ++ ".com") ∧
    (∀ r0, (update_record env r0).full_domain = r0.full_domain ∧
      (update_record env r0).godaddy_url = r0.godaddy_url) := by
  obtain ⟨-, hrs, -⟩ := batch_ok env ds rs tr h
  subst hrs
  constructor
  · intro r hr
    obtain ⟨d, -, rfl⟩ := List.mem_map.mp hr
    have hp := update_record_preserves env (mkRecord d (dnsBool (env.dns d)))
    unfold finalRecord
    rw [hp.2.2.1, hp.2.2.2, hp.1]
    exact ⟨rfl, rfl⟩
  · intro r0
    exact ⟨(update_record_preserves env r0).2.2.1,
           (update_record_preserves env r0).2.2.2⟩

/-- Concrete oracle environment for witnesses: `takenexample` resolves
in DNS; every other name fails resolution with "name not found"; every
WHOIS query completes with exit 0 and a "no match" body. -/
def wEnv : Env :=
  { dns := fun d =>
      if d = "takenexample" then DnsOutcome.resolved else DnsOutcome.gaierror true
    whois := fun _ => SubprocOutcome.completed 0 "No match for domain" }

/-- Record of a survivor whose WHOIS probe answered `True`. -/
def availRec (d : String) : Record :=
  { mkRecord d true with
      whois_available := some true
      available := true
      verification_method := "DNS + WHOIS" }

/-- Records `batch_check_domains wEnv ["takenexample", "freebie"]` returns. -/
def wRecs : List Record := [mkRecord "takenexample" false, availRec "freebie"]

/-- Trace `batch_check_domains wEnv ["takenexample", "freebie"]` emits. -/
def wTrace : List Event :=
  [Event.dnsQuery "takenexample", Event.sleep (1/10), Event.dnsQuery "freebie",
   Event.sleep (1/10), Event.whoisQuery "freebie", Event.sleep (1/2)]

/-- C1 witness: the survivor record of a concrete two-candidate run. -/
theorem C1_witness :
    (availRec "freebie").dns_available = dnsBool (wEnv.dns (availRec "freebie").domain) ∧
    (∀ b, (availRec "freebie").whois_available = some b →
      (availRec "freebie").available = b) ∧
    ((availRec "freebie").whois_available = none →
      (availRec "freebie").available = (availRec "freebie").dns_available) :=
  C1_final_verdict wEnv ["takenexample", "freebie"] wRecs wTrace (by rfl)
    (availRec "freebie") (by decide)

/-- C2 witness: on the concrete run the single WHOIS query is for the
single DNS-`true` candidate. -/
theorem C2_witness :
    wTrace.filterMap whoisDomain =
      (["takenexample", "freebie"].filter (fun d => dnsBool (wEnv.dns d))) ∧
    ∀ r ∈ wRecs, r.dns_available = false →
      r.whois_available = none ∧ r.verification_method = "DNS only" :=
  C2_whois_once_per_survivor wEnv ["takenexample", "freebie"] wRecs wTrace (by rfl)

/-- C5 witness: a survivor with a definite WHOIS boolean is tagged
`"DNS + WHOIS"`. -/
theorem C5_witness :
    (availRec "freebie").verification_method = "DNS + WHOIS" :=
  ((C5_verification_method_tags wEnv ["takenexample", "freebie"] wRecs wTrace (by rfl))
    (availRec "freebie") (by decide) (by rfl)).2 true (by rfl)

/-- C6 witness: record order equals candidate order on a concrete run;
the empty batch is empty with an empty trace. -/
theorem C6_witness :
    List.map (fun r => r.domain) wRecs = ["takenexample", "freebie"] ∧
    batch_check_domains wEnv [] = Except.ok ([], []) :=
  C6_order_preserved wEnv ["takenexample", "freebie"] wRecs wTrace (by rfl)

/-- Oracle environment for the C8 witness: every WHOIS call raises an
unexpected exception, every DNS call fails resolution normally. -/
def w8Env : Env :=
  { dns := fun _ => DnsOutcome.gaierror true
    whois := fun _ => SubprocOutcome.excOther }

/-- C8 witness: with every WHOIS call raising an unexpected exception,
the batch still completes with one record per candidate. -/
theorem C8_witness :
    whois_check SubprocOutcome.excOther = none ∧
    ∃ rs tr, batch_check_domains w8Env ["alpha", "beta"] = Except.ok (rs, tr) ∧
      List.map (fun r => r.domain) rs = ["alpha", "beta"] :=
  C8_whois_failures_never_abort w8Env ["alpha", "beta"] (by decide)

/-- Oracle environment for the C9 witness: both candidates survive DNS
and get definite WHOIS answers. -/
def w9Env : Env :=
  { dns := fun _ => DnsOutcome.gaierror true
    whois := fun _ => SubprocOutcome.completed 0 "No match for domain" }

/-- Records `batch_check_domains w9Env ["alpha", "beta"]` returns. -/
def w9Recs : List Record := [availRec "alpha", availRec "beta"]

/-- Trace `batch_check_domains w9Env ["alpha", "beta"]` emits. -/
def w9Trace : List Event :=
  [Event.dnsQuery "alpha", Event.sleep (1/10), Event.dnsQuery "beta",
   Event.sleep (1/10), Event.whoisQuery "alpha", Event.sleep (1/2),
   Event.whoisQuery "beta", Event.sleep (1/2)]

/-- C9 witness: on a concrete two-survivor run, a 0.1 s sleep separates
the two DNS queries (positions 0 and 2) and a 0.5 s sleep separates the
two WHOIS queries (positions 4 and 6). -/
theorem C9_witness :
    (∃ k, 0 < k ∧ k < 2 ∧ w9Trace.get? k = some (Event.sleep (1/10))) ∧
    (∃ k, 4 < k ∧ k < 6 ∧ w9Trace.get? k = some (Event.sleep (1/2))) :=
  ⟨(C9_throttling w9Env ["alpha", "beta"] w9Recs w9Trace (by rfl)).1
      0 2 "alpha" "beta" (by decide) (by rfl) (by rfl),
   (C9_throttling w9Env ["alpha", "beta"] w9Recs w9Trace (by rfl)).2
      4 6 "alpha" "beta" (by decide) (by rfl) (by rfl)⟩

/-- C10 witness: the display fields of a concrete returned record. -/
theorem C10_witness :
    (mkRecord "takenexample" false).full_domain =
      (mkRecord "takenexample" false).domain ++ ".com" ∧
    (mkRecord "takenexample" false).godaddy_url =
      "https://www.godaddy.com/domainsearch/find?domainToCheck=" ++
        (mkRecord "takenexample" false).domain ++ ".com" :=
  (C10_display_fields wEnv ["takenexample", "freebie"] wRecs wTrace (by rfl)).1
    (mkRecord "takenexample" false) (by decide)
